import Mathlib

set_option maxRecDepth 100000

/-!
Shallow embedding of the ADCMT 7351 controller's core components
(packet codec, sequence counter, USB endpoint discovery, device session),
translated from the Rust sources in `src/protocol/packet.rs`,
`src/protocol/sequence.rs`, `src/protocol/mod.rs`,
`src/transport/usb_device.rs`, `src/device/operations/base.rs` and
`src/device/operations/trigger.rs`.

Byte buffers are `List Nat` (each element a byte value); Rust `u8`/`u32`
arithmetic is modelled on `Nat` with explicit `% 256` / masking where the
source converts or truncates.
-/

namespace Adcmt

/-- Constant `MAX_CMD_LEN` from `src/protocol/mod.rs`: maximum command
length in bytes. -/
def MAX_CMD_LEN : Nat := 64

/-- Little-endian byte serialization of a 32-bit value, mirroring Rust's
`u32::to_le_bytes` (the argument is a `u32`, hence `< 2^32`; each byte is
extracted by shifting and truncating). -/
def u32_le (v : Nat) : List Nat :=
  [v % 256, v / 256 % 256, v / 65536 % 256, v / 16777216 % 256]

/-- Read a little-endian 32-bit value from four consecutive bytes of a
buffer, mirroring `u32::from_le_bytes([buffer[i], buffer[i+1], buffer[i+2],
buffer[i+3]])` in `decode_read`.  Out-of-range reads default to 0, but the
source only reads in bounds (under its `len >= 12` guard). -/
def readLE32 (buffer : List Nat) (i : Nat) : Nat :=
  buffer.getD i 0 + buffer.getD (i + 1) 0 * 256 +
    buffer.getD (i + 2) 0 * 65536 + buffer.getD (i + 3) 0 * 16777216

/-- Function `Packet::encode_write` from `src/protocol/packet.rs`.  The
command is the UTF-8 byte list of the Rust `&str` argument (`len()` is its
byte length); `sequence` is a `u8`, modelled by taking the argument mod 256
wherever the source reads it.  The Rust code allocates a zeroed vector of
size `12 + aligned_len` and copies the header, the command bytes and the
newline into it; the untouched tail stays zero, which the `List.replicate`
below reproduces. -/
def encode_write (command : List Nat) (sequence : Nat) : Except String (List Nat) :=
  if command.length > MAX_CMD_LEN then
    .error "Command too long (max 64 bytes)"
  else if command.length = 0 then
    .error "Command cannot be empty"
  else
    let aligned_len := (command.length + 1 + 3) &&& 0xFFFFFFFC
    let lower_header := ((255 - sequence % 256) <<< 16) ||| ((sequence % 256) <<< 8) ||| 1
    .ok (u32_le lower_header ++ u32_le aligned_len ++ [1, 0, 0, 0] ++
      command ++ [0x0A] ++ List.replicate (aligned_len - (command.length + 1)) 0)

/-- Function `Packet::encode_read` from `src/protocol/packet.rs`: a
header-only read request with a fixed 4-byte zero payload (the zeroed
vector's tail). -/
def encode_read (sequence : Nat) : List Nat :=
  let aligned_len := 4
  let lower_header := ((255 - sequence % 256) <<< 16) ||| ((sequence % 256) <<< 8) ||| 2
  u32_le lower_header ++ u32_le aligned_len ++ [0, 0, 0, 0] ++
    List.replicate aligned_len 0

/-- Trailing CR/LF stripping loop at the end of `Packet::decode_read`:
`while let Some(&b) = data.last() { if b == CR || b == LF { data.pop() } else
{ break } }`, i.e. drop bytes 13 and 10 one at a time from the end until the
last byte is neither. -/
def stripTrailingCRLF (data : List Nat) : List Nat :=
  (data.reverse.dropWhile (fun b => b == 13 || b == 10)).reverse

/-- Slice-window computation of `Packet::decode_read` (the `let (data_start,
data_size) = if ... else ...` block): on a framed buffer (length ≥ 12,
first byte 0x02) the window starts at 12 and spans the remainder, trimmed to
the declared length when that is strictly between 0 and the remainder;
otherwise the whole buffer is the window. -/
def decode_window (buffer : List Nat) : Nat × Nat :=
  if 12 ≤ buffer.length ∧ buffer.getD 0 0 = 0x02 then
    let response_data_len := readLE32 buffer 4
    let data_size := buffer.length - 12
    (12, if 0 < response_data_len ∧ response_data_len < data_size then
      response_data_len else data_size)
  else
    (0, buffer.length)

/-- Function `Packet::decode_read` from `src/protocol/packet.rs`: empty
input short-circuits to an empty result; otherwise slice the window
computed by `decode_window` out of the buffer and strip trailing CR/LF. -/
def decode_read (buffer : List Nat) : Except String (List Nat) :=
  if buffer.isEmpty then
    .ok []
  else
    let w := decode_window buffer
    .ok (stripTrailingCRLF ((buffer.drop w.1).take w.2))

/-- State-transition function of `SequenceCounter::next` (and the identical
`increment`) from `src/protocol/sequence.rs`: the `Cell<u8>` holds
`current`; the successor is 1 when `current` is 0, otherwise
`current.wrapping_add(1)` with a wrap result of 0 replaced by 1.  `next`
stores the successor and returns it, so one function models both the new
state and the returned value. -/
def seqNext (current : Nat) : Nat :=
  if current = 0 then 1
  else
    let n := (current + 1) % 256
    if n = 0 then 1 else n

/-- Whitespace trimming of a character list, mirroring Rust's `str::trim`
as used on ASCII instrument responses in `trigger.rs`. -/
def trimChars (s : List Char) : List Char :=
  ((s.dropWhile Char.isWhitespace).reverse.dropWhile Char.isWhitespace).reverse

/-- Dropping of a leading `"SPN"` from a response, mirroring
`trimmed.strip_prefix("SPN").unwrap_or(trimmed)` in
`Device::sampling_count` (`trigger.rs`): remove the prefix when present,
otherwise keep the string. -/
def dropSPN (s : List Char) : List Char :=
  match s with
  | 'S' :: 'P' :: 'N' :: rest => rest
  | _ => s

/-- Rust `str::parse::<u16>` on the numeric part of a response: an optional
leading `+` sign, then one or more ASCII digits, value at most 65535;
anything else is a parse error. -/
def parse_u16 (s : List Char) : Except String Nat :=
  let digits := match s with
    | '+' :: rest => rest
    | _ => s
  if digits.isEmpty then
    .error "cannot parse integer from empty string"
  else if digits.all Char.isDigit then
    let v := digits.foldl (fun a c => a * 10 + (c.toNat - 48)) 0
    if v < 65536 then .ok v else .error "number too large to fit in target type"
  else
    .error "invalid digit found in string"

/-- Response-parsing step of `Device::sampling_count` (`trigger.rs`): trim
the response, drop a leading `SPN`, parse the rest as a `u16`.  The
transport layer is abstracted away: `response` is the text the instrument
returned for the `SPN?` query. -/
def sampling_count_parse (response : List Char) : Except String Nat :=
  match parse_u16 (dropSPN (trimChars response)) with
  | .ok v => .ok v
  | .error _ => .error "Failed to parse sampling count value"

/-- Function `Device::sampling_count_set` (`trigger.rs`): write the set
command `SPN<n>`, then run `sampling_count` (which writes the query `SPN?`
and parses the instrument's reply), and fail when the read-back value
differs from the requested one.  Transport writes always succeed in this
model and are recorded in order in the first component; `response` is the
oracle reply to the query. -/
def sampling_count_set (sampling_count : Nat) (response : List Char) :
    List (List Char) × Except String Unit :=
  (["SPN".toList ++ (toString sampling_count).toList, "SPN?".toList],
    match sampling_count_parse response with
    | .error e => .error e
    | .ok v => if v ≠ sampling_count then .error "Failed to set sampling count"
        else .ok ())

/-- Transfer kinds of `rusb::TransferType` (the constants are the `u8`
representation used by the `as u8` cast in `get_endpoints`). -/
inductive TransferType where
  | control
  | isochronous
  | bulk
  | interrupt
deriving DecidableEq, Repr

/-- Numeric value of a transfer kind under Rust's `as u8` cast
(`rusb::TransferType` discriminants). -/
def TransferType.toU8 : TransferType → Nat
  | .control => 0
  | .isochronous => 1
  | .bulk => 2
  | .interrupt => 3

/-- Endpoint descriptor as observed by `UsbDevice::get_endpoints`: its
address byte (bit 0x80 is the direction bit, `LIBUSB_ENDPOINT_DIR_MASK`)
and its transfer kind. -/
structure EndpointDescriptor where
  address : Nat
  ttype : TransferType
deriving DecidableEq, Repr

/-- Result record `UsbEndpoints` from `src/transport/usb_device.rs`. -/
structure UsbEndpoints where
  read_addr : Nat
  read_type : Nat
  write_addr : Nat
  write_type : Nat
deriving DecidableEq, Repr

/-- Test whether `get_endpoints` keeps an endpoint: the
`matches!(endpoint_type, TransferType::Bulk | TransferType::Interrupt)`
filter. -/
def isDataEndpoint (e : EndpointDescriptor) : Bool :=
  e.ttype == .bulk || e.ttype == .interrupt

/-- Test for the inbound direction: `address & LIBUSB_ENDPOINT_DIR_MASK ==
LIBUSB_ENDPOINT_IN`, i.e. `address & 0x80 == 0x80`. -/
def isInbound (e : EndpointDescriptor) : Bool :=
  e.address &&& 0x80 == 0x80

/-- Scan loop of `UsbDevice::get_endpoints`: walk the endpoint descriptors
in order carrying the `(read_endpoint, write_endpoint)` options, skip
non-bulk/non-interrupt endpoints, record the first inbound endpoint and the
first outbound endpoint, and break out of the loop as soon as both are
recorded. -/
def scanEndpoints (eps : List EndpointDescriptor)
    (r w : Option (Nat × TransferType)) :
    Option (Nat × TransferType) × Option (Nat × TransferType) :=
  match eps with
  | [] => (r, w)
  | e :: rest =>
    if isDataEndpoint e then
      let r' := if isInbound e then (if r.isNone then some (e.address, e.ttype) else r) else r
      let w' := if isInbound e then w else (if w.isNone then some (e.address, e.ttype) else w)
      if r'.isSome && w'.isSome then (r', w')
      else scanEndpoints rest r' w'
    else
      scanEndpoints rest r w

/-- Endpoint-discovery function `UsbDevice::get_endpoints`
(`src/transport/usb_device.rs`), starting from the endpoint-descriptor list
of the first alternate setting of the first interface of the single
configuration (the descriptor plumbing above the loop is abstracted into
the input list).  The `as u8` / `try_into` casts of the transfer kinds
always succeed and are `TransferType.toU8`. -/
def get_endpoints (eps : List EndpointDescriptor) : Except String UsbEndpoints :=
  match scanEndpoints eps none none with
  | (none, _) => .error "No suitable READ endpoint found"
  | (some _, none) => .error "No suitable WRITE endpoint found"
  | (some (ra, rt), some (wa, wt)) =>
    .ok ⟨ra, rt.toU8, wa, wt.toU8⟩

/-- Device-session state for `Device` (`src/device/operations/base.rs`):
the `SequenceCounter` cell's current byte, and the packets handed to the
USB transport's `write`, in order. -/
structure DeviceState where
  counter : Nat
  written : List (List Nat)
deriving DecidableEq, Repr

/-- Function `Device::write` (`base.rs`): draw the next sequence value from
the counter (which mutates the `Cell` first), then encode the command; an
encoding failure propagates the error before any transport write, while on
success the packet is written to the transport.  Transport writes
themselves are abstracted as always succeeding and recorded in
`DeviceState.written`. -/
def device_write (st : DeviceState) (command : List Nat) :
    Except String Unit × DeviceState :=
  let sequence := seqNext st.counter
  let st1 : DeviceState := ⟨sequence, st.written⟩
  match encode_write command sequence with
  | .error e => (.error e, st1)
  | .ok packet => (.ok (), ⟨st1.counter, st1.written ++ [packet]⟩)

/-- Specification-side rounding: `round_up_to_4(n)`, the least multiple of
4 that is at least `n` (for the alignment rule of the spec). -/
def roundUp4 (n : Nat) : Nat := 4 * ((n + 3) / 4)

/-- Specification-side property: `l` does not end in a CR or LF byte. -/
def noTrailingCRLF (l : List Nat) : Prop :=
  ∀ b, l.getLast? = some b → ¬(b = 13 ∨ b = 10)

/-- Specification-side characterization of "strip trailing CR/LF bytes one
at a time from the end until none remain": the output is a prefix of the
input, everything removed was a CR or LF byte, and the output no longer
ends in one. -/
def rstrip_crlf_spec (input output : List Nat) : Prop :=
  ∃ tail, input = output ++ tail ∧ (∀ b ∈ tail, b = 13 ∨ b = 10) ∧
    noTrailingCRLF output

/-- Specification-side selector: the first endpoint of the list whose
transfer kind is bulk or interrupt and whose direction is inbound. -/
def firstInbound (eps : List EndpointDescriptor) : Option EndpointDescriptor :=
  (eps.filter isDataEndpoint).find? isInbound

/-- Specification-side selector: the first endpoint of the list whose
transfer kind is bulk or interrupt and whose direction is outbound. -/
def firstOutbound (eps : List EndpointDescriptor) : Option EndpointDescriptor :=
  (eps.filter isDataEndpoint).find? (fun e => ! isInbound e)

/-- First-of-two choice on options, used to state the scan-loop invariant:
keep `a` when it is already set, otherwise fall back to `b`. -/
def orFirst {α : Type} (a b : Option α) : Option α :=
  match a with
  | some x => some x
  | none => b

/-- Helper: the head of `dropWhile p l`, when present, fails `p`. -/
theorem head?_dropWhile_not {α : Type} (p : α → Bool) :
    ∀ (l : List α) (a : α), (l.dropWhile p).head? = some a → p a = false := by
  intro l
  induction l with
  | nil => intro a h; simp [List.dropWhile] at h
  | cons x xs ih =>
    intro a h
    by_cases hx : p x
    · rw [List.dropWhile_cons_of_pos hx] at h
      exact ih a h
    · rw [List.dropWhile_cons_of_neg hx] at h
      simp at h
      subst h
      simpa using hx

/-- Helper: `stripTrailingCRLF` satisfies the specification-side
characterization of trailing-CR/LF removal. -/
theorem stripTrailingCRLF_ok (l : List Nat) :
    rstrip_crlf_spec l (stripTrailingCRLF l) := by
  refine ⟨(l.reverse.takeWhile (fun b => b == 13 || b == 10)).reverse, ?_, ?_, ?_⟩
  · rw [stripTrailingCRLF, ← List.reverse_append,
      List.takeWhile_append_dropWhile, List.reverse_reverse]
  · intro b hb
    rw [List.mem_reverse] at hb
    have hp := List.mem_takeWhile_imp hb
    simpa using hp
  · intro b hb
    rw [stripTrailingCRLF, List.getLast?_reverse] at hb
    have hp := head?_dropWhile_not _ _ _ hb
    simp at hp
    omega

/-- Helper: a nonempty buffer decodes through its `decode_window` slice. -/
theorem decode_read_nonempty (buffer : List Nat) (h : buffer ≠ []) :
    decode_read buffer =
      .ok (stripTrailingCRLF
        ((buffer.drop (decode_window buffer).1).take (decode_window buffer).2)) := by
  have hne : buffer.isEmpty = false := by
    cases buffer with
    | nil => exact absurd rfl h
    | cons x xs => rfl
  simp [decode_read, hne]

/-- Claim C5: `decode_read` on the empty buffer returns the empty result
(no error), and on any buffer that is shorter than 12 bytes or whose first
byte is not 0x02 it returns the whole buffer with trailing CR (13) and LF
(10) bytes stripped one at a time from the end until none remain. -/
theorem decode_read_raw_spec :
    decode_read ([] : List Nat) = .ok [] ∧
    ∀ buffer : List Nat, buffer.length < 12 ∨ buffer.getD 0 0 ≠ 0x02 →
      decode_read buffer = .ok (stripTrailingCRLF buffer) ∧
      rstrip_crlf_spec buffer (stripTrailingCRLF buffer) := by
  refine ⟨rfl, ?_⟩
  intro buffer hraw
  refine ⟨?_, stripTrailingCRLF_ok buffer⟩
  by_cases hnil : buffer = []
  · subst hnil; rfl
  · rw [decode_read_nonempty buffer hnil]
    have hcond : ¬(12 ≤ buffer.length ∧ buffer.getD 0 0 = 0x02) := by
      intro hc; rcases hraw with hl | hb
      · omega
      · exact hb hc.2
    rw [decode_window, if_neg hcond]
    simp

/-- Claim C1: on a framed buffer (length at least 12, first byte 0x02)
`decode_read` slices the payload starting at offset 12, of length equal to
the little-endian 32-bit declared length at header bytes 4–7 when that is
strictly between 0 and the remaining byte count, and of the full remainder
otherwise, then strips trailing CR/LF; and on the concrete buffer
`[0x02,0,0,0, 0x02,0,0,0, 0,0,0,0, 0x34,0x2E,0x32,0x0D,0x0A]` it returns
`[0x34, 0x2E]`. -/
theorem decode_read_framed_spec :
    (∀ buffer : List Nat, 12 ≤ buffer.length → buffer.getD 0 0 = 0x02 →
      let declared := readLE32 buffer 4
      let remainder := buffer.length - 12
      let size := if 0 < declared ∧ declared < remainder then declared else remainder
      decode_read buffer = .ok (stripTrailingCRLF ((buffer.drop 12).take size)) ∧
      rstrip_crlf_spec ((buffer.drop 12).take size)
        (stripTrailingCRLF ((buffer.drop 12).take size))) ∧
    decode_read [0x02, 0, 0, 0, 0x02, 0, 0, 0, 0, 0, 0, 0, 0x34, 0x2E, 0x32, 0x0D, 0x0A] =
      .ok [0x34, 0x2E] := by
  constructor
  · intro buffer h12 h02
    have hnil : buffer ≠ [] := by
      intro he; rw [he] at h12; simp at h12
    have hwin : decode_window buffer =
        (12, if 0 < readLE32 buffer 4 ∧ readLE32 buffer 4 < buffer.length - 12 then
          readLE32 buffer 4 else buffer.length - 12) := by
      rw [decode_window, if_pos ⟨h12, h02⟩]
    refine ⟨?_, stripTrailingCRLF_ok _⟩
    rw [decode_read_nonempty buffer hnil, hwin]
  · rfl

/-- Claim C9: `decode_read` is total — it returns `Ok` on every input (the
error branch of its `Result` is unreachable) — and the slice window it
computes is always in bounds: `data_start + data_size` never exceeds the
buffer length, whatever the declared 32-bit payload length says. -/
theorem decode_read_total (buffer : List Nat) :
    (∃ out, decode_read buffer = .ok out) ∧
    (decode_window buffer).1 + (decode_window buffer).2 ≤ buffer.length := by
  constructor
  · by_cases hnil : buffer = []
    · subst hnil; exact ⟨[], rfl⟩
    · exact ⟨_, decode_read_nonempty buffer hnil⟩
  · rw [decode_window]
    by_cases hc : 12 ≤ buffer.length ∧ buffer.getD 0 0 = 0x02
    · rw [if_pos hc]
      dsimp only
      by_cases hd : 0 < readLE32 buffer 4 ∧ readLE32 buffer 4 < buffer.length - 12
      · rw [if_pos hd]; omega
      · rw [if_neg hd]; omega
    · rw [if_neg hc]; omega

/-- Witness for claim C5 at the concrete raw buffer `[52, 13, 10]`. -/
theorem decode_read_raw_spec_witness :
    decode_read [52, 13, 10] = .ok (stripTrailingCRLF [52, 13, 10]) ∧
    stripTrailingCRLF [52, 13, 10] = [52] :=
  ⟨(decode_read_raw_spec.2 [52, 13, 10] (by decide)).1, by rfl⟩

/-- Witness for claim C1 at a concrete framed buffer with declared length 0
(whole remainder used, trailing CR stripped). -/
theorem decode_read_framed_spec_witness :
    decode_read [0x02, 0, 0, 0, 0, 0, 0, 0, 0, 0, 0, 0, 52, 46, 13, 10] = .ok [52, 46] := by
  have h := decode_read_framed_spec.1
    [0x02, 0, 0, 0, 0, 0, 0, 0, 0, 0, 0, 0, 52, 46, 13, 10] (by decide) (by decide)
  exact h.1.trans (by rfl)

/-- Helper: little-endian bytes of the packed first header word with write
opcode 1, for any sequence byte. -/
theorem u32_le_word_op1 : ∀ m < 256,
    u32_le (((255 - m) <<< 16) ||| (m <<< 8) ||| 1) = [1, m, 255 - m, 0] := by decide

/-- Helper: little-endian bytes of the packed first header word with read
opcode 2, for any sequence byte. -/
theorem u32_le_word_op2 : ∀ m < 256,
    u32_le (((255 - m) <<< 16) ||| (m <<< 8) ||| 2) = [2, m, 255 - m, 0] := by decide

/-- Helper: the masking `& 0xFFFFFFFC` clears the two low bits for all the
small values the encoder can feed it. -/
theorem mask_align : ∀ n < 69, n &&& 0xFFFFFFFC = 4 * (n / 4) := by decide

/-- Helper: `encode_write` fails exactly on the empty command and on
commands longer than `MAX_CMD_LEN` bytes. -/
theorem encode_write_error_char (command : List Nat) (s : Nat) :
    (∃ e, encode_write command s = .error e) ↔
      (command.length = 0 ∨ command.length > MAX_CMD_LEN) := by
  rw [encode_write]
  by_cases h1 : command.length > MAX_CMD_LEN
  · rw [if_pos h1]
    exact ⟨fun _ => Or.inr h1, fun _ => ⟨_, rfl⟩⟩
  · rw [if_neg h1]
    by_cases h2 : command.length = 0
    · rw [if_pos h2]
      exact ⟨fun _ => Or.inl h2, fun _ => ⟨_, rfl⟩⟩
    · rw [if_neg h2]
      constructor
      · rintro ⟨e, he⟩
        simp at he
      · rintro (h | h)
        · exact absurd h h2
        · exact absurd h h1

/-- Claim C6: for every sequence byte, `encode_write` fails with an
invalid-command error exactly when the command is empty or longer than 64
bytes (so it succeeds at every length from 1 to 64, including exactly 64,
and fails at 0 and at 65 or more). -/
theorem encode_write_invalid_iff :
    ∀ (command : List Nat) (s : Nat),
      (∃ e, encode_write command s = .error e) ↔
        (command.length = 0 ∨ command.length > 64) :=
  fun command s => encode_write_error_char command s

/-- Claim C2: for every non-empty command of at most 64 bytes and every
sequence byte, `encode_write` returns the packet
`[1, seq, 255-seq, 0] ++ LE32(aligned) ++ [1,0,0,0] ++ command ++ [0x0A] ++
padding-zeros` with `aligned = round_up_to_4(len+1)` and total length
`12 + aligned`; and concretely `encode_write "*RST" 5` is the 20-byte
packet starting `[0x01, 0x05, 0xFA, 0x00]` with length field 8 and payload
`"*RST\n"` plus three zero bytes. -/
theorem encode_write_layout_spec :
    (∀ (command : List Nat) (s : Nat), 0 < command.length → command.length ≤ 64 →
      encode_write command s = .ok (
        [1, s % 256, 255 - s % 256, 0] ++ u32_le (roundUp4 (command.length + 1)) ++
        [1, 0, 0, 0] ++ command ++ [0x0A] ++
        List.replicate (roundUp4 (command.length + 1) - (command.length + 1)) 0) ∧
      ([1, s % 256, 255 - s % 256, 0] ++ u32_le (roundUp4 (command.length + 1)) ++
        [1, 0, 0, 0] ++ command ++ [0x0A] ++
        List.replicate (roundUp4 (command.length + 1) - (command.length + 1)) 0).length =
        12 + roundUp4 (command.length + 1)) ∧
    encode_write [0x2A, 0x52, 0x53, 0x54] 5 =
      .ok [0x01, 0x05, 0xFA, 0x00, 8, 0, 0, 0, 1, 0, 0, 0,
        0x2A, 0x52, 0x53, 0x54, 0x0A, 0, 0, 0] := by
  constructor
  · intro command s h0 h64
    have hm : s % 256 < 256 := Nat.mod_lt _ (by norm_num)
    have hw := u32_le_word_op1 (s % 256) hm
    have hmask := mask_align (command.length + 1 + 3) (by omega)
    have halign : (command.length + 1 + 3) &&& 0xFFFFFFFC = roundUp4 (command.length + 1) := by
      rw [hmask]; rfl
    constructor
    · rw [encode_write, if_neg (by simp only [MAX_CMD_LEN]; omega), if_neg (by omega)]
      dsimp only
      rw [halign, hw]
    · have hle : command.length + 1 ≤ roundUp4 (command.length + 1) := by
        rw [roundUp4]; omega
      simp [u32_le]
      omega
  · rfl

/-- Claim C8: for every sequence byte, `encode_read` returns exactly the
16 bytes `[2, seq, 255-seq, 0, 4, 0, 0, 0, 0, 0, 0, 0, 0, 0, 0, 0]`:
opcode 2 word, length field 4, zero header suffix, zero payload. -/
theorem encode_read_layout_spec (s : Nat) :
    encode_read s = [2, s % 256, 255 - s % 256, 0, 4, 0, 0, 0, 0, 0, 0, 0, 0, 0, 0, 0] ∧
    (encode_read s).length = 16 := by
  have hm : s % 256 < 256 := Nat.mod_lt _ (by norm_num)
  have hw := u32_le_word_op2 (s % 256) hm
  have h : encode_read s = [2, s % 256, 255 - s % 256, 0, 4, 0, 0, 0, 0, 0, 0, 0, 0, 0, 0, 0] := by
    rw [encode_read]
    rw [hw]
    rfl
  exact ⟨h, by rw [h]; rfl⟩

/-- Witness for claim C2 at the concrete command `"IDN?"` with sequence
byte 1. -/
theorem encode_write_layout_spec_witness :
    encode_write [0x49, 0x44, 0x4E, 0x3F] 1 = .ok
      [1, 1, 254, 0, 8, 0, 0, 0, 1, 0, 0, 0, 0x49, 0x44, 0x4E, 0x3F, 0x0A, 0, 0, 0] := by
  have h := encode_write_layout_spec.1 [0x49, 0x44, 0x4E, 0x3F] 1 (by decide) (by decide)
  exact h.1.trans (by rfl)

/-- Helper: the first `k` calls on a fresh counter (stored value 0) leave
the stored value, and hence the last returned value, equal to `k`, for
`k` up to 255. -/
theorem seqNext_iterate : ∀ k < 256, seqNext^[k] 0 = k := by decide

/-- Claim C3: the first `next()` on a fresh `SequenceCounter` returns 1; on
every reachable stored value the returned value is the predecessor plus
one, except that the successor of 255 is 1 (0 is skipped on wraparound);
`next()` never returns 0; and over 256 consecutive calls the returned
values are 1, 2, ..., 255 and then 1 again. -/
theorem sequence_counter_spec :
    seqNext 0 = 1 ∧
    (∀ c, c < 256 → seqNext c = if c = 255 then 1 else c + 1) ∧
    (∀ c, c < 256 → seqNext c ≠ 0) ∧
    (∀ k, 0 < k → k ≤ 255 → seqNext^[k] 0 = k) ∧
    seqNext^[256] 0 = 1 := by
  refine ⟨rfl, by decide, by decide, ?_, by decide⟩
  intro k _ hk
  exact seqNext_iterate k (by omega)

/-- Witness for claim C3 at the concrete stored values 255 and 7. -/
theorem sequence_counter_spec_witness :
    (seqNext 255 = if 255 = 255 then 1 else 255 + 1) ∧ seqNext^[7] 0 = 7 :=
  ⟨sequence_counter_spec.2.1 255 (by decide),
    sequence_counter_spec.2.2.2.1 7 (by decide) (by decide)⟩

/-- Helper: advancing the counter always changes the stored byte. -/
theorem seqNext_ne_self : ∀ c < 256, seqNext c ≠ c := by decide

/-- Claim C10: `Device::write` on an invalid command (empty or longer than
64 bytes) returns the encoding error and performs no transport write, but
the sequence counter has already been advanced by `next()` before the
encoding step, so a failed write still consumes one sequence number and the
session state is not left unchanged. -/
theorem device_write_invalid_spec (st : DeviceState) (command : List Nat)
    (hbad : command.length = 0 ∨ command.length > 64) :
    (∃ e, (device_write st command).1 = .error e) ∧
    (device_write st command).2.written = st.written ∧
    (device_write st command).2.counter = seqNext st.counter ∧
    (st.counter < 256 → (device_write st command).2.counter ≠ st.counter) := by
  obtain ⟨e, he⟩ := (encode_write_error_char command (seqNext st.counter)).mpr hbad
  rw [device_write]
  dsimp only
  rw [he]
  exact ⟨⟨e, rfl⟩, rfl, rfl, fun hlt => seqNext_ne_self st.counter hlt⟩

/-- Witness for claim C10 at the fresh session state and the empty
command. -/
theorem device_write_invalid_spec_witness :
    (∃ e, (device_write ⟨0, []⟩ []).1 = .error e) ∧
    (device_write ⟨0, []⟩ []).2.written = [] ∧
    (device_write ⟨0, []⟩ []).2.counter = seqNext 0 ∧
    (0 < 256 → (device_write ⟨0, []⟩ []).2.counter ≠ 0) :=
  device_write_invalid_spec ⟨0, []⟩ [] (by decide)

/-- Counterexample for claim C4: at expected value 100 and read-back 99,
`sampling_count_set` does fail, but its error is the fixed message
`"Failed to set sampling count"`, which contains no digit at all — so it
cannot name the expected value 100 or the actual value 99 — and the error
is identical to the one produced at read-back 98, so it carries no
information about the actual value. -/
theorem sampling_count_set_counterexample :
    (sampling_count_set 100 "99".toList).2 = .error "Failed to set sampling count" ∧
    (∀ c ∈ "Failed to set sampling count".toList, ¬ c.isDigit) ∧
    (sampling_count_set 100 "99".toList).2 = (sampling_count_set 100 "98".toList).2 :=
  ⟨rfl, by decide, rfl⟩

/-- Claim C4 as amended: `sampling_count_set(n)` issues the set command
`SPN<n>` and then the query command `SPN?`; when the read-back value parses
as `v` it succeeds exactly when `v = n`, and on disagreement it fails with
the fixed error `"Failed to set sampling count"`, which names the setting
(sampling count) but not the expected and actual values. -/
theorem sampling_count_set_verify (n : Nat) (response : List Char) (v : Nat)
    (hp : sampling_count_parse response = .ok v) :
    (sampling_count_set n response).1 =
      ["SPN".toList ++ (toString n).toList, "SPN?".toList] ∧
    ((sampling_count_set n response).2 = .ok () ↔ v = n) ∧
    (v ≠ n → (sampling_count_set n response).2 =
      .error "Failed to set sampling count") := by
  refine ⟨rfl, ?_, ?_⟩
  · rw [sampling_count_set]
    dsimp only
    rw [hp]
    by_cases hv : v = n
    · simp [hv]
    · simp [hv]
  · intro hv
    rw [sampling_count_set]
    dsimp only
    rw [hp]
    simp [hv]

/-- Witness for the amended claim C4 at expected 100 with read-backs 100
(success) and 99 (failure). -/
theorem sampling_count_set_verify_witness :
    ((sampling_count_set 100 "100".toList).2 = .ok () ↔ (100 : Nat) = 100) ∧
    ((99 : Nat) ≠ 100 → (sampling_count_set 100 "99".toList).2 =
      .error "Failed to set sampling count") :=
  ⟨(sampling_count_set_verify 100 "100".toList 100 (by rfl)).2.1,
    (sampling_count_set_verify 100 "99".toList 99 (by rfl)).2.2⟩

/-- Helper: the endpoint scan loop computes, for each direction, the
already-recorded endpoint or else the first matching endpoint of the
remaining list; in particular the early break once both directions are
recorded does not change the outcome. -/
theorem scanEndpoints_spec :
    ∀ (eps : List EndpointDescriptor) (r w : Option (Nat × TransferType)),
      scanEndpoints eps r w =
        (orFirst r ((firstInbound eps).map (fun e => (e.address, e.ttype))),
         orFirst w ((firstOutbound eps).map (fun e => (e.address, e.ttype)))) := by
  intro eps
  induction eps with
  | nil =>
    intro r w
    cases r <;> cases w <;> rfl
  | cons e rest ih =>
    intro r w
    by_cases hd : isDataEndpoint e
    · by_cases hin : isInbound e
      · have hfi : firstInbound (e :: rest) = some e := by
          rw [firstInbound, List.filter_cons_of_pos hd, List.find?_cons_of_pos _ hin]
        have hfo : firstOutbound (e :: rest) = firstOutbound rest := by
          rw [firstOutbound, List.filter_cons_of_pos hd, List.find?_cons_of_neg _ (by simp [hin])]
          rfl
        rw [hfi, hfo]
        cases r with
        | some a =>
          cases w with
          | some b => simp [scanEndpoints, hd, hin, orFirst]
          | none =>
            rw [scanEndpoints]
            simp only [hd, hin, if_pos, if_true, Option.isNone_some, Option.isNone_none,
              Option.isSome_some, Option.isSome_none, Bool.and_false, Bool.false_and,
              if_false, ite_true, ite_false, Bool.and_true]
            rw [ih]
            simp [orFirst]
        | none =>
          cases w with
          | some b => simp [scanEndpoints, hd, hin, orFirst]
          | none =>
            rw [scanEndpoints]
            simp only [hd, hin, Option.isNone_none, Option.isSome_some, Option.isSome_none,
              Bool.and_false, ite_true, ite_false]
            rw [ih]
            simp [orFirst]
      · have hfi : firstInbound (e :: rest) = firstInbound rest := by
          rw [firstInbound, List.filter_cons_of_pos hd, List.find?_cons_of_neg _ (by simpa using hin)]
          rfl
        have hfo : firstOutbound (e :: rest) = some e := by
          rw [firstOutbound, List.filter_cons_of_pos hd, List.find?_cons_of_pos _ (by simpa using hin)]
        rw [hfi, hfo]
        cases r with
        | some a =>
          cases w with
          | some b => simp [scanEndpoints, hd, hin, orFirst]
          | none => simp [scanEndpoints, hd, hin, orFirst]
        | none =>
          cases w with
          | some b =>
            rw [scanEndpoints]
            simp only [hd, hin, Option.isNone_some, Option.isSome_some, Option.isSome_none,
              Bool.false_and, Bool.and_false, ite_true, ite_false]
            rw [ih]
            simp [orFirst]
          | none =>
            rw [scanEndpoints]
            simp only [hd, hin, Option.isNone_none, Option.isSome_some, Option.isSome_none,
              Bool.and_false, Bool.false_and, ite_true, ite_false]
            rw [ih]
            simp [orFirst]
    · have hfi : firstInbound (e :: rest) = firstInbound rest := by
        rw [firstInbound, List.filter_cons_of_neg (by simpa using hd)]
        rfl
      have hfo : firstOutbound (e :: rest) = firstOutbound rest := by
        rw [firstOutbound, List.filter_cons_of_neg (by simpa using hd)]
        rfl
      rw [hfi, hfo]
      rw [scanEndpoints]
      simp only [hd, ite_false, if_false, Bool.false_eq_true]
      rw [ih]

/-- Claim C7: endpoint discovery scans the endpoint descriptors in order,
skips every endpoint that is neither bulk nor interrupt, records the first
remaining inbound endpoint as the read endpoint and the first remaining
outbound endpoint as the write endpoint (the scan's early break once both
are recorded does not change this), and fails with the no-read-endpoint
(respectively no-write-endpoint) error exactly when no such inbound
(respectively outbound) endpoint exists in the full list. -/
theorem get_endpoints_spec (eps : List EndpointDescriptor) :
    (firstInbound eps = none →
      get_endpoints eps = .error "No suitable READ endpoint found") ∧
    (∀ e, firstInbound eps = some e → firstOutbound eps = none →
      get_endpoints eps = .error "No suitable WRITE endpoint found") ∧
    (∀ e f, firstInbound eps = some e → firstOutbound eps = some f →
      get_endpoints eps = .ok ⟨e.address, e.ttype.toU8, f.address, f.ttype.toU8⟩) := by
  have hs : scanEndpoints eps none none =
      ((firstInbound eps).map (fun e => (e.address, e.ttype)),
       (firstOutbound eps).map (fun e => (e.address, e.ttype))) := by
    rw [scanEndpoints_spec eps none none]
    rfl
  refine ⟨?_, ?_, ?_⟩
  · intro h
    rw [get_endpoints, hs, h]
    rfl
  · intro e he hw
    rw [get_endpoints, hs, he, hw]
    rfl
  · intro e f he hf
    rw [get_endpoints, hs, he, hf]
    rfl

/-- Witness for claim C7 on a two-endpoint list: inbound bulk endpoint
0x81 becomes the read endpoint and outbound bulk endpoint 0x02 the write
endpoint. -/
theorem get_endpoints_spec_witness :
    get_endpoints [⟨0x81, .bulk⟩, ⟨0x02, .bulk⟩] = .ok ⟨0x81, 2, 0x02, 2⟩ := by
  have h := (get_endpoints_spec [⟨0x81, .bulk⟩, ⟨0x02, .bulk⟩]).2.2
    ⟨0x81, .bulk⟩ ⟨0x02, .bulk⟩ (by rfl) (by rfl)
  exact h.trans (by rfl)

end Adcmt
